import Mathlib

/-!
# Verification of the autonomous-docs-mcp drift-detection / validation core

Shallow embedding of the drift-detection, file-discovery and validation
logic of the repository:

* `examples/continuous-sync/sync-checker.js` — `getLastModified`,
  `analyzeSync` (outdated / missing classification, `daysBehind`,
  priority tiers, report `status`), and the `main` root-existence guard;
* `src/analyzers/codebase-analyzer.ts` — `CodebaseAnalyzer.discoverFiles`,
  `extractAPIs`, `extractComponents`, `analyzeDocumentationNeeds`,
  `syncWithSource`;
* `src/validators/doc-validator.ts` — `DocumentationValidator.validate`,
  `validateFrontmatter`, `validateLinks`, `validateCodeExamples`,
  `checkCommonIssues`.

Timestamps are modelled as integers (seconds since the epoch): the primary
`git log -1 --format=%ct` path yields integer seconds.  JavaScript string
truthiness (`!x` true for `undefined` and `""`) is modelled on
`Option String` by `truthy`.
-/

namespace AutoDocs

/-- `sub` occurs as a contiguous sublist of `l`. -/
def listInfix (sub : List Char) : List Char → Bool
  | [] => sub.isEmpty
  | c :: rest => sub.isPrefixOf (c :: rest) || listInfix sub rest

/-- Substring test: JS `String.prototype.includes`. -/
def hasSubstr (s sub : String) : Bool := listInfix sub.toList s.toList

/-- Whitespace for JS `String.prototype.trim` (the characters that occur
in git output: space, tab, newline, carriage return). -/
def isWsChar (c : Char) : Bool := c == ' ' || c == '\t' || c == '\n' || c == '\r'

/-- JS `s.trim()`. -/
def trimJS (s : String) : String :=
  let l := s.toList.dropWhile isWsChar
  String.mk ((l.reverse.dropWhile isWsChar).reverse)

/-- ASCII lower-casing of one character (JS `toLowerCase` on the ASCII
paths this code handles). -/
def charLower (c : Char) : Char :=
  if 'A' ≤ c && c ≤ 'Z' then Char.ofNat (c.toNat + 32) else c

/-- JS `s.toLowerCase()`. -/
def toLowerJS (s : String) : String := String.mk (s.toList.map charLower)

/-- JS `s.startsWith(pre)`. -/
def startsWithJS (s pre : String) : Bool := pre.toList.isPrefixOf s.toList

/-- JS `s.endsWith(suf)`. -/
def endsWithJS (s suf : String) : Bool := suf.toList.reverse.isPrefixOf s.toList.reverse

/-- Helper of `splitPath`: accumulate the current (reversed) segment. -/
def splitAux (cur : List Char) : List Char → List String
  | [] => [String.mk cur.reverse]
  | c :: rest =>
      if c == '/' then String.mk cur.reverse :: splitAux [] rest
      else splitAux (c :: cur) rest

/-- Split a path string on `/` (JS `s.split('/')`). -/
def splitPath (s : String) : List String := splitAux [] s.toList

/-- JS truthiness of an optional string: `undefined` and `""` are falsy. -/
def truthy : Option String → Bool
  | none => false
  | some s => !(s == "")

/-! ## sync-checker.js : getLastModified -/

/-- Outcome of the `execSync("git log -1 --format=%ct <path>")` call:
the command either throws (non-zero exit: no repository, command failure)
or succeeds producing some stdout.  For a file that exists but is
untracked inside a repository, `git log` succeeds with *empty* output. -/
inductive GitResult where
  | fails
  | succeeds (output : String)
deriving DecidableEq, Repr

/-- JS `parseInt(s)` (radix 10): skip leading whitespace, optional sign,
then the maximal run of leading decimal digits; `NaN` (here `none`) when
no digit is found. -/
def parseIntJS (s : String) : Option Int :=
  let l := (trimJS s).toList
  let core : List Char → Option Int := fun cs =>
    let digits := cs.takeWhile Char.isDigit
    if digits.isEmpty then none
    else some (Int.ofNat (digits.foldl (fun a c => a * 10 + (c.toNat - '0'.toNat)) 0))
  match l with
  | '-' :: rest => (core rest).map (fun n => -n)
  | '+' :: rest => core rest
  | _ => core l

/-- `getLastModified` of sync-checker.js: try the git timestamp
(`parseInt(timestamp) || 0`, so any unparsable or zero output yields `0`);
fall back to the filesystem mtime only when the git command throws. -/
def getLastModified (git : GitResult) (mtime : Int) : Int :=
  match git with
  | .succeeds out =>
      match parseIntJS (trimJS out) with
      | some n => if n == 0 then 0 else n
      | none => 0
  | .fails => mtime

/-! ## sync-checker.js : analyzeSync -/

inductive Priority where
  | low
  | medium
  | high
deriving DecidableEq, Repr

inductive SyncStatus where
  | synced
  | outdated
  | incomplete
deriving DecidableEq, Repr

/-- `Math.floor((srcMod - docMod) / 86400)` on integer timestamps. -/
def daysBehind (srcMod docMod : Int) : Int := (srcMod - docMod).fdiv 86400

/-- `daysBehind > 7 ? 'high' : daysBehind > 3 ? 'medium' : 'low'`. -/
def priorityOf (d : Int) : Priority :=
  if d > 7 then .high else if d > 3 then .medium else .low

/-- `relativePath.replace(/\.mdx?$/, '.ts')` — the doc→source path map. -/
def mdxToTs (p : String) : String :=
  if endsWithJS p ".mdx" then p.dropRight 4 ++ ".ts"
  else if endsWithJS p ".md" then p.dropRight 3 ++ ".ts"
  else p

/-- One discovered doc file as seen by the outdated-docs loop: its path
relative to the docs root, the existence of its mapped source candidate
(`fs.existsSync(sourceEquivalent)`) and the two `getLastModified`
results. -/
structure DocSrcPair where
  docPath : String
  srcExists : Bool
  srcMod : Int
  docMod : Int
deriving DecidableEq, Repr

structure OutdatedEntry where
  doc : String
  source : String
  daysBehind : Int
  priority : Priority
deriving DecidableEq, Repr

/-- Body of the outdated-docs loop of `analyzeSync`: an entry is pushed
iff the mapped source exists and `daysBehind > 0`. -/
def checkDoc (p : DocSrcPair) : Option OutdatedEntry :=
  if p.srcExists then
    let d := daysBehind p.srcMod p.docMod
    if d > 0 then
      some { doc := p.docPath, source := mdxToTs p.docPath,
             daysBehind := d, priority := priorityOf d }
    else none
  else none

/-- `f.includes('/api/') || f.includes('/routes/') || f.includes('/components/')`. -/
def isApiLikePath (f : String) : Bool :=
  hasSubstr f "/api/" || hasSubstr f "/routes/" || hasSubstr f "/components/"

/-- `relativePath.replace(/\.[jt]sx?$/, '.mdx')` — the source→doc path map. -/
def srcToMdx (p : String) : String :=
  if endsWithJS p ".tsx" then p.dropRight 4 ++ ".mdx"
  else if endsWithJS p ".jsx" then p.dropRight 4 ++ ".mdx"
  else if endsWithJS p ".ts" then p.dropRight 3 ++ ".mdx"
  else if endsWithJS p ".js" then p.dropRight 3 ++ ".mdx"
  else p

/-- One discovered source file as seen by the missing-docs loop: its path
and the existence of its mapped doc candidate (`fs.existsSync(docEquivalent)`). -/
structure SourceFileM where
  path : String
  docExists : Bool
deriving DecidableEq, Repr

structure MissingEntry where
  source : String
  expectedDoc : String
  priority : Priority
deriving DecidableEq, Repr

/-- Missing-docs loop of `analyzeSync`: over the api/route/component
filtered source files, push an entry for each whose mapped doc candidate
does not exist. -/
def missingEntries (srcs : List SourceFileM) : List MissingEntry :=
  (srcs.filter (fun s => isApiLikePath s.path)).filterMap (fun s =>
    if !s.docExists then
      some { source := s.path, expectedDoc := srcToMdx s.path,
             priority := if hasSubstr s.path "/api/" then .high else .medium }
    else none)

structure SyncSummaryM where
  totalSourceFiles : Nat
  totalDocFiles : Nat
  outdatedDocs : Nat
  missingDocs : Nat
  upToDate : Nat
deriving DecidableEq, Repr

structure SyncReportM where
  status : SyncStatus
  summary : SyncSummaryM
  outdated : List OutdatedEntry
  missing : List MissingEntry
deriving DecidableEq, Repr

/-- `analyzeSync` of sync-checker.js over the discovered doc and source
files: builds the outdated and missing lists, the summary counters, and
sets `status` in the code's order — `'synced'`, overwritten by
`'outdated'` when outdated entries exist, overwritten by `'incomplete'`
when missing entries exist. -/
def analyzeSync (docs : List DocSrcPair) (srcs : List SourceFileM) : SyncReportM :=
  let outd := docs.filterMap checkDoc
  let upToDate := (docs.filter (fun p => p.srcExists && (checkDoc p).isNone)).length
  let miss := missingEntries srcs
  let st1 := if outd.length > 0 then SyncStatus.outdated else SyncStatus.synced
  let st2 := if miss.length > 0 then SyncStatus.incomplete else st1
  { status := st2
    summary := { totalSourceFiles := srcs.length, totalDocFiles := docs.length,
                 outdatedDocs := outd.length, missingDocs := miss.length,
                 upToDate := upToDate }
    outdated := outd
    missing := miss }

/-- Outcome of sync-checker.js `main`: it exits with code 1 before any
report is produced when either configured root does not exist. -/
inductive MainOutcome where
  | exitError
  | report (r : SyncReportM)
deriving DecidableEq, Repr

/-- `main` of sync-checker.js: guard both roots with `fs.existsSync`,
then run `analyzeSync`. -/
def mainModel (docsExists srcExists : Bool)
    (docs : List DocSrcPair) (srcs : List SourceFileM) : MainOutcome :=
  if !docsExists then .exitError
  else if !srcExists then .exitError
  else .report (analyzeSync docs srcs)

/-! ## codebase-analyzer.ts : CodebaseAnalyzer -/

/-- `path.basename(f)` — the segment after the last `/`. -/
def basename (f : String) : String := (splitPath f).getLastD f

/-- `path.extname(f)` — from the last `.` of the basename to the end;
empty when there is no dot or the only dot starts the basename. -/
def extname (f : String) : String :=
  let b := (basename f).toList
  let idxs := (List.range b.length).filter (fun i => b.getD i ' ' == '.')
  match idxs.getLast? with
  | some i => if i == 0 then "" else String.mk (b.drop i)
  | none => ""

/-- `path.basename(f, path.extname(f))` — basename with its extension
suffix stripped (kept whole when the basename *is* the extension). -/
def basenameNoExt (f : String) : String :=
  let b := basename f
  let e := extname f
  if e != "" && endsWithJS b e && b != e then b.dropRight e.length else b

/-- The ten default include patterns of `CodebaseAnalyzer.discoverFiles`. -/
def defaultPatterns : List String :=
  ["**/*.ts", "**/*.tsx", "**/*.js", "**/*.jsx", "**/*.py",
   "**/*.go", "**/*.rs", "**/*.java", "**/*.md", "**/*.mdx"]

/-- Model of one npm `glob(pattern, { cwd, ignore })` call, pattern
semantics abstracted into `matcher` (exclude patterns folded into the
file list / matcher).  When the cwd does not exist, glob resolves with
no matches — it does not reject — so a `none` root yields `[]`. -/
def globModel (matcher : String → String → Bool) (root : Option (List String))
    (pattern : String) : List String :=
  match root with
  | none => []
  | some files => files.filter (fun f => matcher pattern f)

/-- Append `x` unless already present (JS `Set` insertion). -/
def pushUnique (seen : List String) (x : String) : List String :=
  if x ∈ seen then seen else seen ++ [x]

/-- `[...new Set(allFiles)]` — de-duplication keeping first-insertion order. -/
def dedupFirst (l : List String) : List String := l.foldl pushUnique []

/-- `CodebaseAnalyzer.discoverFiles`: run glob per pattern over the root,
concatenate and de-duplicate.  There is no existence check on the root:
a missing root yields the empty list, not a failure. -/
def discoverFiles (matcher : String → String → Bool) (root : Option (List String))
    (patterns : List String) : List String :=
  dedupFirst (patterns.flatMap (globModel matcher root))

structure APIDefinitionM where
  name : String
  type : String
  file : String
  line : Nat
  signature : String
  description : Option String
deriving DecidableEq, Repr

/-- Filter of `extractAPIs`: `f.includes('api') || f.includes('route') ||
f.includes('endpoint') || f.endsWith('.ts') || f.endsWith('.py')`. -/
def isApiHeuristicFile (f : String) : Bool :=
  hasSubstr f "api" || hasSubstr f "route" || hasSubstr f "endpoint" ||
  endsWithJS f ".ts" || endsWithJS f ".py"

/-- `CodebaseAnalyzer.extractAPIs`: filter, cap at 10 (`quick`) or 100
files, and build one placeholder endpoint entry per file with
`description = "API from " ++ file`. -/
def extractAPIs (files : List String) (depth : String) : List APIDefinitionM :=
  ((files.filter isApiHeuristicFile).take (if depth == "quick" then 10 else 100)).map
    (fun file =>
      { name := basenameNoExt file, type := "endpoint", file := file, line := 1,
        signature := "function()", description := some ("API from " ++ file) })

structure ComponentM where
  name : String
  type : String
  file : String
deriving DecidableEq, Repr

/-- Filter of `extractComponents`. -/
def isComponentFile (f : String) : Bool :=
  endsWithJS f ".tsx" || endsWithJS f ".jsx" || hasSubstr f "component"

/-- `CodebaseAnalyzer.extractComponents`. -/
def extractComponents (files : List String) : List ComponentM :=
  (files.filter isComponentFile).map
    (fun f => { name := basenameNoExt f, type := "react", file := f })

structure DocumentationNeedM where
  type : String
  file : String
  item : String
  priority : Priority
  suggestion : String
deriving DecidableEq, Repr

/-- The need pushed when no README-like file was discovered. -/
def readmeNeed : DocumentationNeedM :=
  { type := "missing", file := "README.md", item := "Project README",
    priority := .high, suggestion := "Create comprehensive project overview" }

/-- `files.some(f => f.toLowerCase().includes('readme'))`. -/
def hasReadme (files : List String) : Bool :=
  files.any (fun f => hasSubstr (toLowerJS f) "readme")

/-- `CodebaseAnalyzer.analyzeDocumentationNeeds` (the `components`
argument is accepted but unused, as in the source). -/
def analyzeDocumentationNeeds (files : List String) (apis : List APIDefinitionM)
    (comps : List ComponentM) : List DocumentationNeedM :=
  (if hasReadme files then [] else [readmeNeed])
  ++ apis.filterMap (fun api =>
      if !(truthy api.description) then
        some { type := "missing", file := api.file, item := api.name,
               priority := .medium,
               suggestion := "Add API documentation for " ++ api.name }
      else none)

structure SyncWithSourceResult where
  status : String
  outdated : List String
  updated : List String
  suggestions : List String
deriving DecidableEq, Repr

/-- `CodebaseAnalyzer.syncWithSource`: the body performs no analysis —
it ignores `docsPath`, `sourcePath` and `autoUpdate` and returns the
constant object `{status: 'synced', outdated: [], updated: [],
suggestions: []}`. -/
def syncWithSource (docsPath sourcePath : String) (autoUpdate : Bool) :
    SyncWithSourceResult :=
  { status := "synced", outdated := [], updated := [], suggestions := [] }

/-! ## doc-validator.ts : DocumentationValidator -/

structure ValidationOptions where
  strict : Bool
  checkLinks : Bool
  checkCodeExamples : Bool
deriving DecidableEq, Repr

/-- A `ValidationError` record (the `line` field is never set by any
check in the source, so it is omitted). -/
structure VError where
  file : String
  type : String
  message : String
  severity : String
deriving DecidableEq, Repr

/-- A `ValidationWarning` record (again, `line` is never set). -/
structure VWarning where
  file : String
  type : String
  message : String
deriving DecidableEq, Repr

/-- The frontmatter data relevant to validation, as produced by
`matter(content)`: the `title` and `description` keys (string values;
a missing key is `none`).  `Except.error` models `matter` throwing. -/
structure FrontmatterData where
  title : Option String
  description : Option String
deriving DecidableEq, Repr

/-- `DocumentationValidator.validateFrontmatter`: a missing (or falsy)
`title` yields a severity-`error` entry; a missing `description` yields
an entry *only when `strict` is set*, and that entry carries severity
`"warning"` although it is returned on the error list; a `matter` parse
failure yields an `invalid_frontmatter` error. -/
def validateFrontmatter (file : String) (parsed : Except String FrontmatterData)
    (options : ValidationOptions) : List VError :=
  match parsed with
  | .ok d =>
      (if !(truthy d.title) then
        [{ file := file, type := "missing_frontmatter",
           message := "Missing required frontmatter field: title",
           severity := "error" }]
      else [])
      ++
      (if !(truthy d.description) && options.strict then
        [{ file := file, type := "missing_frontmatter",
           message := "Missing recommended frontmatter field: description",
           severity := "warning" }]
      else [])
  | .error e =>
      [{ file := file, type := "invalid_frontmatter",
         message := "Invalid frontmatter: " ++ e, severity := "error" }]

/-- node path normalization on segments, as `path.join` performs it:
drop empty and `.` segments, pop one segment on `..` (keeping the `..`
when there is nothing left to pop, as node does for relative paths). -/
def normSegs (acc : List String) : List String → List String
  | [] => acc
  | s :: rest =>
      if s == "" || s == "." then normSegs acc rest
      else if s == ".." then
        if acc == [] || acc.getLastD "" == ".." then normSegs (acc ++ [".."]) rest
        else normSegs acc.dropLast rest
      else normSegs (acc ++ [s]) rest

/-- `linkUrl.startsWith('/') || !linkUrl.includes('://')` — the test
under which a Markdown link target is treated as internal. -/
def linkIsInternal (url : String) : Bool :=
  startsWithJS url "/" || !(hasSubstr url "://")

/-- The `targetPath` of `validateLinks`: `path.join(docsPath, linkUrl)`
for a `/`-prefixed target, else
`path.join(docsPath, path.dirname(file), linkUrl)` — resolution against
the *containing file's directory*, not the docs root.  Paths are segment
lists; `docsRoot` is the docs directory path. -/
def targetPathOf (docsRoot : List String) (file : String) (url : String) :
    List String :=
  if startsWithJS url "/" then normSegs [] (docsRoot ++ splitPath url)
  else normSegs [] (docsRoot ++ (splitPath file).dropLast ++ splitPath url)

/-- Append an extension to the final segment (`` `${targetPath}.mdx` ``). -/
def appendExt (p : List String) (ext : String) : List String :=
  match p.getLast? with
  | some last => p.dropLast ++ [last ++ ext]
  | none => [ext]

/-- The four candidate paths tried by `validateLinks`: the literal
target, `.mdx` / `.md` suffixed, and `index.mdx` inside it. -/
def variantsOf (t : List String) : List (List String) :=
  [t, appendExt t ".mdx", appendExt t ".md", t ++ ["index.mdx"]]

/-- `Promise.any(possiblePaths.map(fs.pathExists ...))`: some variant of
the target exists on the filesystem (`fsPaths` = the set of existing
paths as segment lists). -/
def linkResolves (fsPaths : List (List String)) (t : List String) : Bool :=
  (variantsOf t).any (fun v => fsPaths.contains v)

/-- `DocumentationValidator.validateLinks` over the link targets
extracted from the file by the `[text](url)` regex scan, in order:
each internal target whose variants all fail to exist contributes one
`broken_link` error. -/
def validateLinks (file : String) (links : List String) (docsRoot : List String)
    (fsPaths : List (List String)) : List VError :=
  links.filterMap (fun url =>
    if linkIsInternal url then
      if linkResolves fsPaths (targetPathOf docsRoot file url) then none
      else some { file := file, type := "broken_link",
                  message := "Broken internal link: " ++ url,
                  severity := "error" }
    else none)

/-- One fenced code block found by the ``` regex: the optional language
capture and the body. -/
structure CodeBlock where
  lang : Option String
  code : String
deriving DecidableEq, Repr

/-- `DocumentationValidator.validateCodeExamples` over the fenced blocks
of the file: a missing language tag and an empty body are warnings. -/
def validateCodeExamples (file : String) (blocks : List CodeBlock) : List VWarning :=
  blocks.flatMap (fun b =>
    (if !(truthy b.lang) then
      [{ file := file, type := "missing_code_language",
         message := "Code block missing language specifier" }]
     else [])
    ++
    (if (trimJS b.code).length == 0 then
      [{ file := file, type := "empty_code_block",
         message := "Empty code block found" }]
     else []))

/-- `DocumentationValidator.checkCommonIssues`, its two content tests
(`content.includes('http://localhost') || content.includes('https://docs.example.com')`
and the empty-alt image regex) abstracted into boolean flags. -/
def checkCommonIssues (file : String) (hasAbsUrl hasNoAltImage : Bool) :
    List VWarning :=
  (if hasAbsUrl then
    [{ file := file, type := "absolute_internal_url",
       message := "Consider using relative paths for internal links" }]
   else [])
  ++
  (if hasNoAltImage then
    [{ file := file, type := "missing_alt_text",
       message := "Image found without alt text" }]
   else [])

/-- One documentation file as consumed by the validation loop: its
relative path, its parsed frontmatter, the extracted link targets and
fenced code blocks, and the two content flags. -/
structure DocFileInput where
  file : String
  parsed : Except String FrontmatterData
  links : List String
  blocks : List CodeBlock
  hasAbsUrl : Bool
  hasNoAltImage : Bool
deriving Repr

structure ValidationSummaryM where
  total_files : Nat
  files_with_errors : Nat
  total_errors : Nat
  total_warnings : Nat
deriving DecidableEq, Repr

structure ValidationResultM where
  valid : Bool
  errors : List VError
  warnings : List VWarning
  summary : ValidationSummaryM
deriving DecidableEq, Repr

/-- Per-file error contribution of the validation loop: frontmatter
errors always, link errors when `checkLinks`. -/
def fileErrors (docsRoot : List String) (fsPaths : List (List String))
    (options : ValidationOptions) (f : DocFileInput) : List VError :=
  validateFrontmatter f.file f.parsed options
  ++ (if options.checkLinks then validateLinks f.file f.links docsRoot fsPaths else [])

/-- Per-file warning contribution: code-example warnings when
`checkCodeExamples`, then the common-issue warnings (always run). -/
def fileWarnings (options : ValidationOptions) (f : DocFileInput) : List VWarning :=
  (if options.checkCodeExamples then validateCodeExamples f.file f.blocks else [])
  ++ checkCommonIssues f.file f.hasAbsUrl f.hasNoAltImage

/-- `filesWithErrors` increments when the file contributed a frontmatter
error or (under `checkLinks`) a link error. -/
def fileHasErrors (docsRoot : List String) (fsPaths : List (List String))
    (options : ValidationOptions) (f : DocFileInput) : Bool :=
  !(validateFrontmatter f.file f.parsed options).isEmpty
  || (options.checkLinks &&
      !(validateLinks f.file f.links docsRoot fsPaths).isEmpty)

/-- `DocumentationValidator.validate`: aggregate the per-file checks;
`valid = (errors.length == 0)`, independent of warnings. -/
def validate (docsRoot : List String) (fsPaths : List (List String))
    (files : List DocFileInput) (options : ValidationOptions) : ValidationResultM :=
  let errors := files.flatMap (fileErrors docsRoot fsPaths options)
  let warnings := files.flatMap (fileWarnings options)
  let filesWithErrors :=
    (files.filter (fileHasErrors docsRoot fsPaths options)).length
  { valid := errors.length == 0
    errors := errors
    warnings := warnings
    summary := { total_files := files.length, files_with_errors := filesWithErrors,
                 total_errors := errors.length, total_warnings := warnings.length } }

end AutoDocs

namespace AutoDocs

/-! ## Helper lemmas -/

theorem daysBehind_pos_iff (s d : Int) : 0 < daysBehind s d ↔ 86400 ≤ s - d := by
  unfold daysBehind
  rw [Int.fdiv_eq_ediv _ (by decide)]
  omega

theorem daysBehind_bounds (s d : Int) :
    86400 * daysBehind s d ≤ s - d ∧ s - d < 86400 * (daysBehind s d + 1) := by
  unfold daysBehind
  rw [Int.fdiv_eq_ediv _ (by decide)]
  omega

/-! ## C1 -/

/-- C1: `CodebaseAnalyzer.syncWithSource` (the `sync_documentation`
tool's implementation) ignores its inputs and returns the constant
report `{status: "synced", outdated: [], updated: [], suggestions: []}`.
In particular an invocation with a nonexistent docs or source root is
*not* distinguishable from a genuinely clean tree, contrary to the
spec. -/
theorem syncWithSource_always_synced
    (docsPath sourcePath : String) (autoUpdate : Bool) :
    syncWithSource docsPath sourcePath autoUpdate =
      { status := "synced", outdated := [], updated := [], suggestions := [] } := rfl

/-! ## C2 -/

/-- C2 counterexample: a doc/source pair whose source timestamp is
strictly greater than the doc timestamp (by one second) and whose mapped
source exists produces *no* outdated entry, because
`floor(1 / 86400) = 0` is not `> 0`. -/
theorem checkDoc_one_second_cex :
    (({ docPath := "guide.mdx", srcExists := true,
        srcMod := 1001, docMod := 1000 } : DocSrcPair).srcMod >
      ({ docPath := "guide.mdx", srcExists := true,
         srcMod := 1001, docMod := 1000 } : DocSrcPair).docMod) ∧
    checkDoc { docPath := "guide.mdx", srcExists := true,
               srcMod := 1001, docMod := 1000 } = none := by
  exact ⟨by decide, by rfl⟩

/-- C2 amended: the outdated-docs loop emits an entry for a pair exactly
when its mapped source candidate exists *and* the source timestamp is at
least 86400 seconds (one full day) newer than the doc timestamp; in
particular equal timestamps — and any gap below a day — produce none. -/
theorem checkDoc_isSome_iff (p : DocSrcPair) :
    (checkDoc p).isSome = (p.srcExists && decide (86400 ≤ p.srcMod - p.docMod)) := by
  rcases p with ⟨dp, se, sm, dm⟩
  simp only [checkDoc]
  cases se
  · simp
  · by_cases h : 86400 ≤ sm - dm
    · have hd : 0 < daysBehind sm dm := (daysBehind_pos_iff sm dm).mpr h
      simp [hd, h]
    · have hd : ¬ 0 < daysBehind sm dm := fun hc => h ((daysBehind_pos_iff sm dm).mp hc)
      simp [hd, h]

/-! ## C3 -/

/-- C3: for every emitted outdated entry, `daysBehind` is exactly the
floor of `(srcMod - docMod) / 86400` (characterized by the two floor
inequalities) and the priority is the `>7`/`>3` tier of `daysBehind`;
the tier boundaries evaluate to `8 ↦ high`, `7 ↦ medium`, `4 ↦ medium`,
`3 ↦ low`. -/
theorem checkDoc_daysBehind_floor (p : DocSrcPair) (e : OutdatedEntry)
    (h : checkDoc p = some e) :
    (86400 * e.daysBehind ≤ p.srcMod - p.docMod ∧
      p.srcMod - p.docMod < 86400 * (e.daysBehind + 1)) ∧
    e.priority = priorityOf e.daysBehind ∧
    priorityOf 8 = Priority.high ∧ priorityOf 7 = Priority.medium ∧
    priorityOf 4 = Priority.medium ∧ priorityOf 3 = Priority.low := by
  rcases p with ⟨dp, se, sm, dm⟩
  simp only [checkDoc] at h
  cases se
  · simp at h
  · simp only [if_true] at h
    by_cases hd : 0 < daysBehind sm dm
    · simp only [hd, if_true] at h
      cases h
      refine ⟨daysBehind_bounds sm dm, rfl, by decide, by decide, by decide, by decide⟩
    · simp [hd] at h

/-- Witness for C3: the concrete pair at 8 full days behind. -/
theorem checkDoc_daysBehind_floor_witness :
    (86400 * ((8:Int)) ≤ (691200:Int) - 0 ∧ (691200:Int) - 0 < 86400 * ((8:Int) + 1)) ∧
    Priority.high = priorityOf 8 ∧
    priorityOf 8 = Priority.high ∧ priorityOf 7 = Priority.medium ∧
    priorityOf 4 = Priority.medium ∧ priorityOf 3 = Priority.low :=
  checkDoc_daysBehind_floor
    { docPath := "api.mdx", srcExists := true, srcMod := 691200, docMod := 0 }
    { doc := "api.mdx", source := "api.ts", daysBehind := 8, priority := .high }
    (by rfl)

/-! ## C4 -/

theorem status_formula (o : List OutdatedEntry) (m : List MissingEntry) :
    (if m.length > 0 then SyncStatus.incomplete
     else if o.length > 0 then SyncStatus.outdated else SyncStatus.synced) =
    (if m.isEmpty then
      (if o.isEmpty then SyncStatus.synced else SyncStatus.outdated)
     else SyncStatus.incomplete) := by
  cases m <;> cases o <;> simp

/-- C4: the `status` of an `analyzeSync` report is a pure function of
its own entry lists: `incomplete` when the missing list is non-empty,
else `outdated` when the outdated list is non-empty, else `synced` —
`incomplete` wins when both lists are non-empty. -/
theorem analyzeSync_status_derived (docs : List DocSrcPair) (srcs : List SourceFileM) :
    (analyzeSync docs srcs).status =
      (if (analyzeSync docs srcs).missing.isEmpty then
        (if (analyzeSync docs srcs).outdated.isEmpty then SyncStatus.synced
         else SyncStatus.outdated)
       else SyncStatus.incomplete) := by
  simp only [analyzeSync]
  exact status_formula _ _

/-! ## C5 -/

/-- C5 counterexample: a file that exists but is untracked by version
control — `git log` *succeeds* with empty output — receives `0`
(`parseInt('') || 0`), not its filesystem mtime (here `42`). -/
theorem getLastModified_untracked_cex :
    getLastModified (GitResult.succeeds "") 42 = 0 ∧ (0 : Int) ≠ 42 := by
  exact ⟨by rfl, by decide⟩

/-- C5 amended: the filesystem mtime is returned exactly when the git
*command* throws; when the command succeeds its trimmed output is fed to
`parseInt(..) || 0`, so any output with no parsable nonzero integer —
including the empty output git produces for an untracked file inside a
repository — yields `0`, never the mtime. -/
theorem getLastModified_spec (out : String) (mtime : Int) :
    getLastModified .fails mtime = mtime ∧
    getLastModified (.succeeds out) mtime = (parseIntJS (trimJS out)).getD 0 ∧
    getLastModified (.succeeds "") mtime = 0 := by
  refine ⟨rfl, ?_, rfl⟩
  simp only [getLastModified]
  cases h : parseIntJS (trimJS out) with
  | none => simp
  | some n =>
      by_cases hn : n = 0
      · simp [hn]
      · simp [hn]

/-! ## C6 -/

/-- C6 counterexample: `CodebaseAnalyzer.discoverFiles` performs no
existence check on its root — glob resolves with no matches for a
nonexistent cwd — so a nonexistent root yields the plain empty file
list, identical to the result for an existing but empty tree. -/
theorem discoverFiles_missing_root_cex :
    discoverFiles (fun _ _ => true) none defaultPatterns = [] ∧
    discoverFiles (fun _ _ => true) (some []) defaultPatterns = [] := by
  exact ⟨rfl, rfl⟩

/-- C6 amended: the sync-checker CLI does fail fast — `main` exits with
an error before any report when either configured root does not exist —
but `CodebaseAnalyzer.discoverFiles` returns the empty file list for a
nonexistent root, for every pattern set and matcher, surfacing no
failure. -/
theorem missing_root_behavior (docs : List DocSrcPair) (srcs : List SourceFileM)
    (matcher : String → String → Bool) (patterns : List String) :
    mainModel false true docs srcs = MainOutcome.exitError ∧
    mainModel false false docs srcs = MainOutcome.exitError ∧
    mainModel true false docs srcs = MainOutcome.exitError ∧
    discoverFiles matcher none patterns = [] := by
  refine ⟨rfl, rfl, rfl, ?_⟩
  unfold discoverFiles
  have h : patterns.flatMap (globModel matcher none) = [] := by
    induction patterns with
    | nil => rfl
    | cons p ps ih => simp [globModel, ih]
  rw [h]
  rfl

/-! ## C7 -/

/-- C7 counterexample: a documentation file whose frontmatter parses
with a title but no description yields *nothing at all* (no warning, no
error) when `strict=false`, and when `strict=true` it yields an entry on
the errors list whose `severity` field is `"warning"`, not `"error"`. -/
theorem validate_missing_description_cex :
    (validate ["docs"] []
      [{ file := "page.mdx", parsed := .ok ({ title := some "x", description := none }),
         links := [], blocks := [], hasAbsUrl := false, hasNoAltImage := false }]
      { strict := false, checkLinks := true, checkCodeExamples := true }).warnings = [] ∧
    (validate ["docs"] []
      [{ file := "page.mdx", parsed := .ok ({ title := some "x", description := none }),
         links := [], blocks := [], hasAbsUrl := false, hasNoAltImage := false }]
      { strict := false, checkLinks := true, checkCodeExamples := true }).errors = [] ∧
    (validate ["docs"] []
      [{ file := "page.mdx", parsed := .ok ({ title := some "x", description := none }),
         links := [], blocks := [], hasAbsUrl := false, hasNoAltImage := false }]
      { strict := true, checkLinks := true, checkCodeExamples := true }).errors.map
        (fun e => e.severity) = ["warning"] ∧
    (validate ["docs"] []
      [{ file := "page.mdx", parsed := .ok ({ title := some "x", description := none }),
         links := [], blocks := [], hasAbsUrl := false, hasNoAltImage := false }]
      { strict := true, checkLinks := true, checkCodeExamples := true }).valid = false := by
  exact ⟨rfl, rfl, rfl, rfl⟩

/-- C7 amended: for a parsed frontmatter with a (truthy) title and no
description, validation emits *no* issue when `strict=false` (the result
is valid with empty error and warning lists), and when `strict=true` it
appends exactly one `missing_frontmatter` entry to the *errors* list
with severity field `"warning"` — which still makes `valid=false` since
`valid` counts the errors list; a missing title yields a
severity-`"error"` entry regardless of `strict`. -/
theorem validate_missing_description_amended (file t : String) (ht : t ≠ "")
    (cl cc : Bool) :
    (validate [] []
        [{ file := file, parsed := .ok ({ title := some t, description := none }),
           links := [], blocks := [], hasAbsUrl := false, hasNoAltImage := false }]
      { strict := false, checkLinks := cl, checkCodeExamples := cc }).errors = [] ∧
    (validate [] []
        [{ file := file, parsed := .ok ({ title := some t, description := none }),
           links := [], blocks := [], hasAbsUrl := false, hasNoAltImage := false }]
      { strict := false, checkLinks := cl, checkCodeExamples := cc }).warnings = [] ∧
    (validate [] []
        [{ file := file, parsed := .ok ({ title := some t, description := none }),
           links := [], blocks := [], hasAbsUrl := false, hasNoAltImage := false }]
      { strict := false, checkLinks := cl, checkCodeExamples := cc }).valid = true ∧
    (validate [] []
        [{ file := file, parsed := .ok ({ title := some t, description := none }),
           links := [], blocks := [], hasAbsUrl := false, hasNoAltImage := false }]
      { strict := true, checkLinks := cl, checkCodeExamples := cc }).errors =
      [{ file := file, type := "missing_frontmatter",
         message := "Missing recommended frontmatter field: description",
         severity := "warning" }] ∧
    (validate [] []
        [{ file := file, parsed := .ok ({ title := some t, description := none }),
           links := [], blocks := [], hasAbsUrl := false, hasNoAltImage := false }]
      { strict := true, checkLinks := cl, checkCodeExamples := cc }).valid = false ∧
    validateFrontmatter file (.ok ({ title := none, description := some "d" }))
      { strict := false, checkLinks := cl, checkCodeExamples := cc } =
      [{ file := file, type := "missing_frontmatter",
         message := "Missing required frontmatter field: title", severity := "error" }] ∧
    validateFrontmatter file (.ok ({ title := none, description := some "d" }))
      { strict := true, checkLinks := cl, checkCodeExamples := cc } =
      [{ file := file, type := "missing_frontmatter",
         message := "Missing required frontmatter field: title", severity := "error" }] := by
  simp [validate, fileErrors, fileWarnings, fileHasErrors, validateFrontmatter,
        validateCodeExamples, checkCommonIssues, validateLinks, truthy, ht]

/-- Witness for C7's amended theorem at `file = "page.mdx"`, `t = "x"`. -/
theorem validate_missing_description_amended_witness :
    (validate [] []
        [{ file := "page.mdx", parsed := .ok ({ title := some "x", description := none }),
           links := [], blocks := [], hasAbsUrl := false, hasNoAltImage := false }]
      { strict := false, checkLinks := true, checkCodeExamples := true }).errors = [] ∧
    (validate [] []
        [{ file := "page.mdx", parsed := .ok ({ title := some "x", description := none }),
           links := [], blocks := [], hasAbsUrl := false, hasNoAltImage := false }]
      { strict := false, checkLinks := true, checkCodeExamples := true }).warnings = [] ∧
    (validate [] []
        [{ file := "page.mdx", parsed := .ok ({ title := some "x", description := none }),
           links := [], blocks := [], hasAbsUrl := false, hasNoAltImage := false }]
      { strict := false, checkLinks := true, checkCodeExamples := true }).valid = true ∧
    (validate [] []
        [{ file := "page.mdx", parsed := .ok ({ title := some "x", description := none }),
           links := [], blocks := [], hasAbsUrl := false, hasNoAltImage := false }]
      { strict := true, checkLinks := true, checkCodeExamples := true }).errors =
      [{ file := "page.mdx", type := "missing_frontmatter",
         message := "Missing recommended frontmatter field: description",
         severity := "warning" }] ∧
    (validate [] []
        [{ file := "page.mdx", parsed := .ok ({ title := some "x", description := none }),
           links := [], blocks := [], hasAbsUrl := false, hasNoAltImage := false }]
      { strict := true, checkLinks := true, checkCodeExamples := true }).valid = false ∧
    validateFrontmatter "page.mdx" (.ok ({ title := none, description := some "d" }))
      { strict := false, checkLinks := true, checkCodeExamples := true } =
      [{ file := "page.mdx", type := "missing_frontmatter",
         message := "Missing required frontmatter field: title", severity := "error" }] ∧
    validateFrontmatter "page.mdx" (.ok ({ title := none, description := some "d" }))
      { strict := true, checkLinks := true, checkCodeExamples := true } =
      [{ file := "page.mdx", type := "missing_frontmatter",
         message := "Missing required frontmatter field: title", severity := "error" }] :=
  validate_missing_description_amended "page.mdx" "x" (by decide) true true

/-! ## C8 -/

/-- Modelled from the spec's words, for comparison with the code (claim
C8): a link target resolved against the documentation *root*. -/
def specRootTarget (docsRoot : List String) (url : String) : List String :=
  normSegs [] (docsRoot ++ splitPath url)

/-- C8 counterexample: the relative link `./target` inside
`sub/a.mdx` is resolved against the file's directory (`docs/sub/`), so
with `docs/target.mdx` on disk the code still emits a `broken_link`
error, although the docs-root resolution demanded by the claim finds the
`.mdx` variant. -/
theorem validateLinks_file_dir_cex :
    validateLinks "sub/a.mdx" ["./target"] ["docs"] [["docs", "target.mdx"]] =
      [{ file := "sub/a.mdx", type := "broken_link",
         message := "Broken internal link: ./target", severity := "error" }] ∧
    linkResolves [["docs", "target.mdx"]] (specRootTarget ["docs"] "./target") = true := by
  exact ⟨rfl, rfl⟩

theorem validateLinks_length (file : String) (links : List String)
    (docsRoot : List String) (fs : List (List String)) :
    (validateLinks file links docsRoot fs).length =
      (links.filter (fun u => linkIsInternal u &&
        !(linkResolves fs (targetPathOf docsRoot file u)))).length := by
  induction links with
  | nil => rfl
  | cons u us ih =>
      simp only [validateLinks] at ih ⊢
      by_cases h1 : linkIsInternal u
      · by_cases h2 : linkResolves fs (targetPathOf docsRoot file u)
        · simp [List.filterMap_cons, List.filter_cons, h1, h2, ih]
        · simp [List.filterMap_cons, List.filter_cons, h1, h2, ih]
      · simp [List.filterMap_cons, List.filter_cons, h1, ih]

/-- C8 amended: link targets starting with `/` are resolved against the
docs root, but *other* internal targets are resolved against the
containing file's directory; in either case the literal, `.mdx`, `.md`
and `index.mdx` variants are tried, exactly one `broken_link` error is
emitted per internal link whose variants all fail to exist (and every
emitted entry is a severity-`error` `broken_link`), and creating the
`.mdx` variant of the computed target removes the error on the next
run. -/
theorem validateLinks_spec (file url : String) (links : List String)
    (docsRoot : List String) (fs : List (List String)) :
    (validateLinks file links docsRoot fs).length =
      (links.filter (fun u => linkIsInternal u &&
        !(linkResolves fs (targetPathOf docsRoot file u)))).length ∧
    (validateLinks file links docsRoot fs).all
      (fun e => e.type == "broken_link" && e.severity == "error") = true ∧
    (startsWithJS url "/" →
      targetPathOf docsRoot file url = normSegs [] (docsRoot ++ splitPath url)) ∧
    (¬ startsWithJS url "/" →
      targetPathOf docsRoot file url =
        normSegs [] (docsRoot ++ (splitPath file).dropLast ++ splitPath url)) ∧
    validateLinks file [url] docsRoot
      (fs ++ [appendExt (targetPathOf docsRoot file url) ".mdx"]) = [] := by
  refine ⟨validateLinks_length file links docsRoot fs, ?_, ?_, ?_, ?_⟩
  · rw [List.all_eq_true]
    intro e he
    simp only [validateLinks, List.mem_filterMap] at he
    obtain ⟨u, _, hu⟩ := he
    by_cases h1 : linkIsInternal u
    · by_cases h2 : linkResolves fs (targetPathOf docsRoot file u)
      · simp [h1, h2] at hu
      · simp only [h1, h2, if_true, if_false, Bool.false_eq_true] at hu
        cases hu
        rfl
    · simp [h1] at hu
  · intro h
    simp [targetPathOf, h]
  · intro h
    simp [targetPathOf, h]
  · simp only [validateLinks, List.filterMap]
    by_cases h1 : linkIsInternal url
    · have hres : linkResolves
          (fs ++ [appendExt (targetPathOf docsRoot file url) ".mdx"])
          (targetPathOf docsRoot file url) = true := by
        simp only [linkResolves, variantsOf, List.any_eq_true]
        refine ⟨appendExt (targetPathOf docsRoot file url) ".mdx", by simp, ?_⟩
        exact List.elem_iff.mpr (by simp)
      simp [h1, hres]
    · simp [h1]

/-- Witness for C8's amended theorem at the counterexample's input. -/
theorem validateLinks_spec_witness :
    ((validateLinks "sub/a.mdx" ["./target"] ["docs"] [["docs", "target.mdx"]]).length =
      (["./target"].filter (fun u => linkIsInternal u &&
        !(linkResolves [["docs", "target.mdx"]] (targetPathOf ["docs"] "sub/a.mdx" u)))).length) ∧
    (validateLinks "sub/a.mdx" ["./target"] ["docs"] [["docs", "target.mdx"]]).all
      (fun e => e.type == "broken_link" && e.severity == "error") = true ∧
    (startsWithJS "./target" "/" →
      targetPathOf ["docs"] "sub/a.mdx" "./target" =
        normSegs [] (["docs"] ++ splitPath "./target")) ∧
    (¬ startsWithJS "./target" "/" →
      targetPathOf ["docs"] "sub/a.mdx" "./target" =
        normSegs [] (["docs"] ++ (splitPath "sub/a.mdx").dropLast ++ splitPath "./target")) ∧
    validateLinks "sub/a.mdx" ["./target"] ["docs"]
      ([["docs", "target.mdx"]] ++
        [appendExt (targetPathOf ["docs"] "sub/a.mdx" "./target") ".mdx"]) = [] :=
  validateLinks_spec "sub/a.mdx" "./target" ["./target"] ["docs"] [["docs", "target.mdx"]]

/-! ## C9 -/

/-- C9: every API definition and every component extracted by the
analyzer references a `file` drawn from the input file list of the same
run — entries are built only from filtered/capped sublists of the
discovered files, never fabricated. -/
theorem extract_entries_from_input (files : List String) (depth : String) :
    ((extractAPIs files depth).all (fun a => files.contains a.file)) = true ∧
    ((extractComponents files).all (fun c => files.contains c.file)) = true := by
  constructor
  · rw [List.all_eq_true]
    intro a ha
    simp only [extractAPIs, List.mem_map] at ha
    obtain ⟨f, hf, rfl⟩ := ha
    have hmem : f ∈ files := List.filter_subset' files (List.take_subset _ _ hf)
    exact List.elem_iff.mpr hmem
  · rw [List.all_eq_true]
    intro c hc
    simp only [extractComponents, List.mem_map] at hc
    obtain ⟨f, hf, rfl⟩ := hc
    have hmem : f ∈ files := List.filter_subset' files hf
    exact List.elem_iff.mpr hmem

/-! ## C10 -/

theorem api_description_nonempty (f : String) : ("API from " ++ f == "") = false := by
  rw [beq_eq_false_iff_ne]
  intro h
  have h2 := congrArg String.length h
  rw [String.length_append] at h2
  have h9 : ("API from ").length = 9 := rfl
  have h0 : ("" : String).length = 0 := rfl
  rw [h9, h0] at h2
  omega

/-- C10: every API definition extracted by `extractAPIs` carries a
truthy (non-empty) description, so `analyzeDocumentationNeeds` never
emits a medium-priority missing-API need for them; the needs list of an
analysis run is exactly `[readmeNeed]` when no discovered file path
contains `readme` case-insensitively and `[]` otherwise — in particular
it has at most one entry. -/
theorem analyzeDocumentationNeeds_readme_only (files : List String)
    (depth : String) (comps : List ComponentM) :
    ((extractAPIs files depth).all (fun a => truthy a.description)) = true ∧
    analyzeDocumentationNeeds files (extractAPIs files depth) comps =
      (if hasReadme files then [] else [readmeNeed]) ∧
    (analyzeDocumentationNeeds files (extractAPIs files depth) comps).length ≤ 1 := by
  have hall : ∀ a ∈ extractAPIs files depth, truthy a.description = true := by
    intro a ha
    simp only [extractAPIs, List.mem_map] at ha
    obtain ⟨f, _, rfl⟩ := ha
    simp [truthy, api_description_nonempty]
  have hnil : (extractAPIs files depth).filterMap (fun api =>
      if !(truthy api.description) then
        some { type := "missing", file := api.file, item := api.name,
               priority := Priority.medium,
               suggestion := "Add API documentation for " ++ api.name }
      else (none : Option DocumentationNeedM)) = [] := by
    rw [List.filterMap_eq_nil_iff]
    intro a ha
    simp [hall a ha]
  refine ⟨List.all_eq_true.mpr hall, ?_, ?_⟩
  · simp only [analyzeDocumentationNeeds, hnil, List.append_nil]
  · simp only [analyzeDocumentationNeeds, hnil, List.append_nil]
    by_cases h : hasReadme files <;> simp [h]

end AutoDocs
